import Mathlib

/-
  Verification of the gosshd SSH server framework core against its
  specification.  Each Go function relevant to the checked claims is
  shallowly embedded as an executable Lean definition; machine integers
  are modelled as Nat / Int with explicit truncation where Go converts,
  byte strings as List Nat, and the effects of a handler as explicit
  event traces or state transitions.
-/

/-! ## Byte-level SSH wire encoding (ssh.Marshal / ssh.Unmarshal fragment)

The payloads used by the claims are sequences of SSH `string`
(uint32 big-endian length followed by the bytes) and `uint32`
(4 bytes big-endian) fields, per RFC 4254.  -/

/-- Big-endian 4-byte encoding of a 32-bit value, as produced by
`ssh.Marshal` for a `uint32` field. -/
def u32be (n : Nat) : List Nat :=
  [n / 2 ^ 24 % 256, n / 2 ^ 16 % 256, n / 2 ^ 8 % 256, n % 256]

/-- SSH `string` encoding: uint32 big-endian length, then the bytes. -/
def sshStr (s : List Nat) : List Nat := u32be s.length ++ s

/-- ASCII bytes of a Lean string literal (used to build concrete payloads). -/
def strBytes (s : String) : List Nat := s.toList.map Char.toNat

/-- Parse a `uint32` field: 4 big-endian bytes, returning value and rest. -/
def parseUint32 : List Nat → Option (Nat × List Nat)
  | b0 :: b1 :: b2 :: b3 :: rest =>
      some (((b0 * 256 + b1) * 256 + b2) * 256 + b3, rest)
  | _ => none

/-- Parse an SSH `string` field: uint32 length then that many bytes. -/
def parseSshString (bs : List Nat) : Option (List Nat × List Nat) :=
  match parseUint32 bs with
  | none => none
  | some (len, rest) =>
      if len ≤ rest.length then some (rest.take len, rest.drop len) else none

/-- `ssh.Unmarshal` into `RemoteForwardRequestMsg { BindAddr string; BindPort uint32 }`
(src/global_req.go); the whole buffer must be consumed. -/
def parseForwardMsg (bs : List Nat) : Option (List Nat × Nat) :=
  match parseSshString bs with
  | none => none
  | some (addr, r1) =>
      match parseUint32 r1 with
      | none => none
      | some (port, r2) => if r2 = [] then some (addr, port) else none

/-- `ssh.Unmarshal` into `RemoteForwardCancelRequestMsg` (src/global_req.go);
the wire shape is identical to `RemoteForwardRequestMsg`. -/
def parseCancelMsg (bs : List Nat) : Option (List Nat × Nat) :=
  parseForwardMsg bs

/-- `ssh.Unmarshal` into `ChannelOpenDirectMsg { Dest string; DPort uint32;
Src string; SPort uint32 }` (src/direct_tcpip.go). -/
def parseDirectMsg (bs : List Nat) : Option (List Nat × Nat × List Nat × Nat) :=
  match parseSshString bs with
  | none => none
  | some (dest, r1) =>
      match parseUint32 r1 with
      | none => none
      | some (dport, r2) =>
          match parseSshString r2 with
          | none => none
          | some (src, r3) =>
              match parseUint32 r3 with
              | none => none
              | some (sport, r4) =>
                  if r4 = [] then some (dest, dport, src, sport) else none

/-- Decimal digit bytes of a port number, as `strconv.Itoa` renders it. -/
def portBytes (p : Nat) : List Nat := (Nat.toDigits 10 p).map Char.toNat

/-- `net.JoinHostPort`: wraps the host in brackets when it contains a colon
(byte 58), then appends a colon and the decimal port. -/
def joinHostPort (host : List Nat) (port : Nat) : List Nat :=
  if host.contains 58 then 91 :: host ++ [93, 58] ++ portBytes port
  else host ++ 58 :: portBytes port

/-! ## Generic association-list maps

Go maps keyed by strings / connection handles are embedded as association
lists; `m[k] = v` prepends after removing the key and `delete(m, k)`
removes the key, so each key occurs at most once, matching Go map
semantics. -/

/-- Lookup in an association list (Go map read). -/
def lookupPair {α β : Type} [DecidableEq α] : List (α × β) → α → Option β
  | [], _ => none
  | (k, v) :: rest, a => if k = a then some v else lookupPair rest a

/-- Remove a key from an association list (Go `delete(m, k)`). -/
def delPair {α β : Type} [DecidableEq α] : List (α × β) → α → List (α × β)
  | [], _ => []
  | (k, v) :: rest, a => if k = a then delPair rest a else (k, v) :: delPair rest a

/-! ## Stream copier: `CopyBufferWithContext` (src/serv/io_utils.go)

The function first dispatches on the dynamic capabilities of its
endpoints: a source implementing `io.WriterTo` or a destination
implementing `io.ReaderFrom` receives the whole copy by delegation and
the delegate's `(n, err)` result is returned verbatim.  Only otherwise
does the buffered loop run.  The loop is embedded over an abstract
source and destination: the source is a finite trace of `Read` results
(an exhausted trace stands for a source that reports clean
end-of-input), the destination a queue of `Write` results consumed one
per write (an exhausted queue stands for a destination that accepts
every chunk in full), and the cancellation signal the iteration index
from which `ctx.Done()` is ready (the channel is closed once and stays
ready, so readiness is monotone).  Byte contents do not influence the
control flow, only the counts do, so a read result is its byte count
`nr` plus the returned error.  The delegated calls run external code, so
their results are environment parameters. -/

/-- Result of one `src.Read(buf)` call: byte count and error
(`io.EOF` or another read error). -/
inductive ReadErr
  | eof
  | fail (code : Nat)
deriving DecidableEq

/-- One `src.Read` result: `nr` bytes, optional error. -/
structure ReadStep where
  nr : Nat
  er : Option ReadErr
deriving DecidableEq

/-- One `dst.Write` result: reported count `nw` (Go `int`, may be
negative or exceed the chunk) and optional error code. -/
structure WriteResp where
  nw : Int
  ew : Option Nat
deriving DecidableEq

/-- The errors `CopyBufferWithContext` can return: `interruptedErr`,
`errInvalidWrite`, `io.ErrShortWrite`, a write error from `dst`, or a
non-EOF read error from `src`. -/
inductive CopyErr
  | interrupted
  | invalidWrite
  | shortWrite
  | writeFail (code : Nat)
  | readFail (code : Nat)
deriving DecidableEq

/-- Return value of the copy: `written` (the Go `int64` result), the
total byte count the loop read from `src` (an observation of the trace,
not returned by the Go function), and the error result. -/
structure CopyResult where
  written : Int
  readTotal : Nat
  err : Option CopyErr
deriving DecidableEq

/-- Whether `ctx.Done()` is ready at loop iteration `i`. -/
def cancelHit (cancelAt : Option Nat) (i : Nat) : Bool :=
  match cancelAt with
  | none => false
  | some t => t ≤ i

/-- The write-result fixup from the loop body:
`if nw < 0 || nr < nw { nw = 0; if ew == nil { ew = errInvalidWrite } }`. -/
def adjustWrite (nr : Nat) (resp : WriteResp) : Int × Option CopyErr :=
  if resp.nw < 0 ∨ (nr : Int) < resp.nw then
    (0, if resp.ew.isSome then resp.ew.map CopyErr.writeFail else some CopyErr.invalidWrite)
  else (resp.nw, resp.ew.map CopyErr.writeFail)

/-- The copy loop of `CopyBufferWithContext`: each iteration first polls
`ctx.Done()` (the `select` with a `default` branch), then reads, writes
the chunk if `nr > 0`, and checks the write error, the short-write
condition and the read error in that order. -/
def copyLoop (reads : List ReadStep) (writes : List WriteResp)
    (cancelAt : Option Nat) (i : Nat) : CopyResult :=
  if cancelHit cancelAt i then ⟨0, 0, some CopyErr.interrupted⟩
  else
    match reads with
    | [] => ⟨0, 0, none⟩
    | r :: rest =>
        if 0 < r.nr then
          let a := adjustWrite r.nr (writes.headD ⟨(r.nr : Int), none⟩)
          if a.2.isSome then ⟨a.1, r.nr, a.2⟩
          else if a.1 ≠ (r.nr : Int) then ⟨a.1, r.nr, some CopyErr.shortWrite⟩
          else
            match r.er with
            | some ReadErr.eof => ⟨a.1, r.nr, none⟩
            | some (ReadErr.fail c) => ⟨a.1, r.nr, some (CopyErr.readFail c)⟩
            | none =>
                let res := copyLoop rest writes.tail cancelAt (i + 1)
                ⟨a.1 + res.written, r.nr + res.readTotal, res.err⟩
        else
          match r.er with
          | some ReadErr.eof => ⟨0, 0, none⟩
          | some (ReadErr.fail c) => ⟨0, 0, some (CopyErr.readFail c)⟩
          | none => copyLoop rest writes cancelAt (i + 1)

/-- A source endpoint: if it implements `io.WriterTo`, `writerTo` holds
the `(n, err)` its `WriteTo(dst)` call returns; otherwise its trace of
`Read` results. -/
structure CopySrc where
  writerTo : Option (Int × Option CopyErr)
  reads : List ReadStep
deriving DecidableEq

/-- A destination endpoint: if it implements `io.ReaderFrom`,
`readerFrom` holds the `(n, err)` its `ReadFrom(src)` call returns;
otherwise its queue of `Write` results. -/
structure CopyDst where
  readerFrom : Option (Int × Option CopyErr)
  writes : List WriteResp
deriving DecidableEq

/-- Which branch of `CopyBufferWithContext` ran, together with the value
the function returned: the two fast paths return the delegate's result
verbatim, the buffered loop returns its `CopyResult`. -/
inductive CopyOutcome
  | delegatedWriteTo (n : Int) (e : Option CopyErr)
  | delegatedReadFrom (n : Int) (e : Option CopyErr)
  | looped (r : CopyResult)
deriving DecidableEq

/-- `CopyBufferWithContext(dst, src, buf, ctx)` in full: if the source
implements `io.WriterTo` the body is `return wt.WriteTo(dst)`; otherwise
if the destination implements `io.ReaderFrom` it is
`return rt.ReadFrom(src)`; both fast paths return the delegate's result
without ever polling `ctx.Done()` and without the short-write /
invalid-write fixups.  Only when neither applies does the buffered
`copyLoop` run (the buffer-allocation block only sizes the chunks, which
the read trace already fixes). -/
def CopyBufferWithContext (src : CopySrc) (dst : CopyDst) (cancelAt : Option Nat) :
    CopyOutcome :=
  match src.writerTo with
  | some (n, e) => CopyOutcome.delegatedWriteTo n e
  | none =>
      match dst.readerFrom with
      | some (n, e) => CopyOutcome.delegatedReadFrom n e
      | none => CopyOutcome.looped (copyLoop src.reads dst.writes cancelAt 0)

/-! ## Session channel handler (src/serv/session.go, src/utils/session_utils.go) -/

/-- Request-type constants from src/session.go. -/
def ExitStatus : String := "exit-status"

/-- Actions `SendExitStatus` performs on the session channel, in order. -/
inductive SessionEvent
  | sendRequest (name : String) (wantReply : Bool) (payload : List Nat)
  | close
deriving DecidableEq

/-- Trace and return value of one `SendExitStatus` call. -/
structure SendExitStatusRun where
  events : List SessionEvent
  ret : Option Nat
deriving DecidableEq

/-- `DefaultSessionChanHandler.SendExitStatus(code, close, session)`:
marshals `struct{ Status uint32 }{uint32(code)}` (Go `int` to `uint32`
truncates to the low 32 bits), sends an `exit-status` request with
want-reply false, and — unless the send failed and `close` is false —
closes the channel.  `sendErr` / `closeErr` are the errors the channel
returns for the two operations. -/
def SendExitStatus (code : Int) (closeFlag : Bool)
    (sendErr closeErr : Option Nat) : SendExitStatusRun :=
  let payload := u32be ((code % (2 ^ 32 : Int)).toNat)
  let sendEv := SessionEvent.sendRequest ExitStatus false payload
  match sendErr, closeFlag with
  | some e, false => ⟨[sendEv], some e⟩
  | _, _ => ⟨[sendEv, SessionEvent.close], closeErr⟩

/-- The queue capacities and copy-buffer size held by a
`DefaultSessionChanHandler`; the three message queues are Go channels
created with `make(chan ..., cap)` (capacity 0 is an unbuffered
channel). -/
structure DefaultSessionChanHandlerCfg where
  winchCap : Int
  ptyCap : Int
  sigCap : Int
  copyBufSize : Int
deriving DecidableEq

/-- `NewSessionChannelHandler(winMsgBufSize, ptyMsgBufSize, sigMsgBufSize,
copyBufSize)`: each negative queue size is replaced by 1 before the
queues are created (identical in both the serv and the utils package). -/
def NewSessionChannelHandler (winMsgBufSize ptyMsgBufSize sigMsgBufSize copyBufSize : Int) :
    DefaultSessionChanHandlerCfg :=
  let w := if winMsgBufSize < 0 then 1 else winMsgBufSize
  let p := if ptyMsgBufSize < 0 then 1 else ptyMsgBufSize
  let s := if sigMsgBufSize < 0 then 1 else sigMsgBufSize
  ⟨w, p, s, copyBufSize⟩

/-! ## tcpip-forward / cancel-tcpip-forward handler (src/user.go) -/

/-- `request.Reply(ok, payload)`: the reply flag and its payload
(`nil` payload is `none`). -/
structure GlobalReply where
  ok : Bool
  payload : Option (List Nat)
deriving DecidableEq

/-- The `invalidPayload` byte string from src/user.go. -/
def invalidPayload : List Nat := strBytes "invalid payload"

/-- `ForwardedTcpIpRequestHandler` state: the `forwards` map from
`bind-addr:bind-port` keys to listeners (listeners are opaque ids), plus
the record of listeners closed so far. -/
structure ForwardState where
  forwards : List (List Nat × Nat)
  closedListeners : List Nat
deriving DecidableEq

/-- `CloseAndDel(addr)`: if the key is present, close that listener and
delete the entry; otherwise do nothing. -/
def CloseAndDel (st : ForwardState) (addr : List Nat) : ForwardState :=
  match lookupPair st.forwards addr with
  | some ln => ⟨delPair st.forwards addr, st.closedListeners ++ [ln]⟩
  | none => st

/-- State and reply of one `CancelForward` call. -/
structure CancelResult where
  state : ForwardState
  reply : GlobalReply
deriving DecidableEq

/-- `ForwardedTcpIpRequestHandler.CancelForward`: unmarshal the payload
(reply false with `invalidPayload` on failure), join the bind address and
port into the map key, `CloseAndDel` it, and reply true with nil
payload. -/
def CancelForward (payload : List Nat) (st : ForwardState) : CancelResult :=
  match parseCancelMsg payload with
  | none => ⟨st, false, some invalidPayload⟩
  | some (bindAddr, bindPort) =>
      ⟨CloseAndDel st (joinHostPort bindAddr bindPort), true, none⟩

/-- The reply side of `ForwardedTcpIpRequestHandler.ServeForward`:
unmarshal the payload (reply false with `invalidPayload` on failure),
`net.Listen` on `bind-addr:bind-port` (`bindResult` is the dial
environment: an error byte string, or the bound listener whose address
carries the OS-assigned port — for a real TCP listener splitting and
parsing that port never fails), then `request.Reply(true, nil)`. -/
def ServeForwardReply (payload : List Nat) (bindResult : Except (List Nat) Nat) :
    GlobalReply :=
  match parseForwardMsg payload with
  | none => ⟨false, some invalidPayload⟩
  | some _ =>
      match bindResult with
      | Except.error e => ⟨false, some e⟩
      | Except.ok _assignedPort => ⟨true, none⟩

/-! ## Server shutdown (src/sshd.go) -/

/-- The mutable `SSHServer` state touched by `Shutdown` / `DelSSHConn`:
the single non-reentrant mutex, the listener field (`none` is Go `nil`),
the `conns` map from connections to cancel tokens (opaque ids), and the
records of cancelled tokens, closed connections and closed listeners. -/
structure SSHServerState where
  lockHeld : Bool
  listener : Option Nat
  conns : List (Nat × Nat)
  cancelledTokens : List Nat
  closedConns : List Nat
  closedListeners : List Nat
deriving DecidableEq

/-- Outcome of running a method on the (single-threaded) server: a
normal return, a runtime panic (nil dereference), or a deadlock
(acquiring the already-held non-reentrant `sync.Mutex`). -/
inductive Outcome (α : Type)
  | ok (a : α)
  | panicked
  | deadlocked
deriving DecidableEq

/-- Sequencing that propagates a panic or deadlock. -/
def Outcome.bind {α β : Type} : Outcome α → (α → Outcome β) → Outcome β
  | Outcome.ok a, f => f a
  | Outcome.panicked, _ => Outcome.panicked
  | Outcome.deadlocked, _ => Outcome.deadlocked

/-- `SSHServer.DelSSHConn(conn)`: takes the lock (deadlocking if the
caller already holds it — `sync.Mutex` is not reentrant), and if the
connection is registered, runs its cancel token, closes it once more and
deletes the entry; the deferred unlock releases the lock. -/
def DelSSHConn (st : SSHServerState) (conn : Nat) : Outcome SSHServerState :=
  if st.lockHeld then Outcome.deadlocked
  else
    let st1 := { st with lockHeld := true }
    let st2 :=
      match lookupPair st1.conns conn with
      | some tok =>
          { st1 with cancelledTokens := st1.cancelledTokens ++ [tok],
                     closedConns := st1.closedConns ++ [conn] }
      | none => st1
    Outcome.ok { st2 with conns := delPair st2.conns conn, lockHeld := false }

/-- The loop body of `Shutdown` over the registered connections: run the
cancel token, close the connection, then call `DelSSHConn` — which locks
the mutex `Shutdown` still holds.  Connection `Close` errors are taken
to be nil (they only select the early-return value). -/
def shutdownConns : List (Nat × Nat) → SSHServerState → Outcome SSHServerState
  | [], st => Outcome.ok st
  | (c, tok) :: rest, st =>
      let st1 := { st with cancelledTokens := st.cancelledTokens ++ [tok],
                           closedConns := st.closedConns ++ [c] }
      (DelSSHConn st1 c).bind fun st2 => shutdownConns rest st2

/-- `SSHServer.Shutdown()`: takes the lock, calls `sshd.listener.Close()`
— a nil dereference panic when the listener field is nil — sets the
listener field to nil, then iterates the `conns` map; the deferred unlock
releases the lock on return.  `lnCloseErr` is the error the listener's
`Close` returns, which is the value `Shutdown` returns when the map is
empty. -/
def Shutdown (lnCloseErr : Option Nat) (st : SSHServerState) :
    Outcome (SSHServerState × Option Nat) :=
  if st.lockHeld then Outcome.deadlocked
  else
    let st1 := { st with lockHeld := true }
    match st1.listener with
    | none => Outcome.panicked
    | some l =>
        let st2 := { st1 with listener := none,
                              closedListeners := st1.closedListeners ++ [l] }
        (shutdownConns st2.conns st2).bind fun st3 =>
          Outcome.ok ({ st3 with lockHeld := false }, lnCloseErr)

/-! ## direct-tcpip handler (src/serv/direct_tcpip.go) -/

/-- Channel-type constant from the gosshd package (RFC 4254 7.2). -/
def DirectTcpIpChannel : String := "direct-tcpip"

/-- `RejectionReason` constant from the gosshd package (RFC 4254 5.1). -/
def Prohibited : Nat := 1

/-- The synchronous actions `HandleDirectTcpIP` performs, in order.
The two copier tasks it spawns on success close both endpoints when
their copy returns. -/
inductive DTEvent
  | reject (reason : Nat) (msg : String)
  | accept
  | spawnDiscard
  | spawnCopier
  | closeChannel
  | closeConn
deriving DecidableEq

/-- `TcpIpDirector.HandleDirectTcpIP`: returns at once on a wrong channel
type; rejects with `Prohibited` on malformed extra data; accepts the
channel; dials `dest:dport` (`dialOk` is the environment's answer) — on
dial failure it returns; on success it spawns the request-discarder and
the two copiers and waits. -/
def HandleDirectTcpIP (ctype : String) (extra : List Nat)
    (acceptOk dialOk : Bool) : List DTEvent :=
  if ctype = DirectTcpIpChannel then
    match parseDirectMsg extra with
    | none => [DTEvent.reject Prohibited "invalid tcp-ip metadata"]
    | some _ =>
        if acceptOk then
          if dialOk then
            [DTEvent.accept, DTEvent.spawnDiscard, DTEvent.spawnCopier, DTEvent.spawnCopier]
          else [DTEvent.accept]
        else []
  else []

/-! ## Tee wrapper, reader side (src/serv/io_utils.go, src/utils/net_utils.go) -/

/-- Observable outcome of one `copyOnReadConn.Read(b)` call: the returned
count and error, the chunks handed to the sink, and the buffer contents
after the call. -/
structure TeeReadResult where
  n : Nat
  err : Option Nat
  sinkGot : List (List Nat)
  bufAfter : List Nat
deriving DecidableEq

/-- `copyOnReadConn.Read(b)`: first `c.writer.Write(b)` — the sink is
handed the buffer as it is BEFORE the underlying read — returning
`(0, err)` if the sink errors; then the underlying `Read(b)` fills the
buffer with up to `len(b)` bytes and its result is returned.  `readData`
and `readErr` are what the underlying channel read yields, `sinkErr` the
sink's write error. -/
def copyOnReadConnRead (buf : List Nat) (readData : List Nat)
    (readErr : Option Nat) (sinkErr : Option Nat) : TeeReadResult :=
  match sinkErr with
  | some e => ⟨0, some e, [buf], buf⟩
  | none =>
      let d := readData.take buf.length
      ⟨d.length, readErr, [buf], d ++ buf.drop d.length⟩

/-! ## Context typed slots (src/unnamed/part_000)

The file holds two `SSHContext` implementations.  The first stores every
slot in the `context.WithValue` chain under the `CtxKey...` constants;
its value chain is embedded as an association list with the newest
binding first, which is the `Value` lookup order.  The second stores the
slots as struct fields. -/

/-- The `iota` key constants. -/
def CtxKeyUser : Nat := 0

def CtxKeySessionID : Nat := 1

def CtxKeyPermissions : Nat := 2

def CtxKeyClientVersion : Nat := 3

def CtxKeyServerVersion : Nat := 4

/-- Key/value store of the map-based `SSHContext`; only string-valued
slots appear in the claims, so values are strings. -/
def KVStore : Type := List (Nat × String)

/-- `SSHContext.SetValue(key, value)` via `context.WithValue`: a new
binding shadows older ones. -/
def kvSetValue (st : KVStore) (k : Nat) (v : String) : KVStore := (k, v) :: st

/-- Map-based `SSHContext.SetClientVersion`: stores the value under
`CtxKeyServerVersion` — exactly as written in the source. -/
def kvSetClientVersion (st : KVStore) (v : String) : KVStore :=
  kvSetValue st CtxKeyServerVersion v

/-- Map-based `SSHContext.SetServerVersion`. -/
def kvSetServerVersion (st : KVStore) (v : String) : KVStore :=
  kvSetValue st CtxKeyServerVersion v

/-- Map-based `SSHContext.ClientVersion`: reads `CtxKeyClientVersion`
(`none` models the failing type assertion on a missing value, a panic in
Go). -/
def kvClientVersion (st : KVStore) : Option String :=
  lookupPair st CtxKeyClientVersion

/-- Map-based `SSHContext.ServerVersion`. -/
def kvServerVersion (st : KVStore) : Option String :=
  lookupPair st CtxKeyServerVersion

/-- The struct-based `SSHContext`'s version slots (the other fields do
not interact with these setters). -/
structure TypedSSHContext where
  sversion : String
  cversion : String
deriving DecidableEq

/-- Struct-based `SSHContext.SetClientVersion`. -/
def typedSetClientVersion (ctx : TypedSSHContext) (v : String) : TypedSSHContext :=
  { ctx with cversion := v }

/-- Struct-based `SSHContext.SetServerVersion`. -/
def typedSetServerVersion (ctx : TypedSSHContext) (v : String) : TypedSSHContext :=
  { ctx with sversion := v }

/-- Struct-based `SSHContext.ClientVersion`. -/
def typedClientVersion (ctx : TypedSSHContext) : String := ctx.cversion

/-- Struct-based `SSHContext.ServerVersion`. -/
def typedServerVersion (ctx : TypedSSHContext) : String := ctx.sversion

/-! ## Concrete inputs used by witnesses and counterexamples -/

/-- Bytes of the host string 127.0.0.1. -/
def hostBytes : List Nat := [49, 50, 55, 46, 48, 46, 48, 46, 49]

/-- A `tcpip-forward` payload: bind-addr 127.0.0.1, bind-port 0. -/
def c1p0 : List Nat := sshStr hostBytes ++ u32be 0

/-- A `cancel-tcpip-forward` payload: bind-addr 127.0.0.1, bind-port 8080. -/
def c7p0 : List Nat := sshStr hostBytes ++ u32be 8080

/-- A forwards map holding one unrelated binding. -/
def c7st0 : ForwardState := ⟨[([1], 7)], []⟩

/-- A server with a live listener and an empty connection registry. -/
def c5st0 : SSHServerState := ⟨false, some 0, [], [], [], []⟩

/-- The same server after one completed `Shutdown`. -/
def c5st1 : SSHServerState := ⟨false, none, [], [], [], [0]⟩

/-- A server with a live listener and one registered connection. -/
def c5stc : SSHServerState := ⟨false, some 0, [(1, 2)], [], [], []⟩

/-- A `direct-tcpip` extra-data payload: dest 127.0.0.1:80,
origin ::1:54321. -/
def c6extra0 : List Nat :=
  sshStr hostBytes ++ u32be 80 ++ sshStr [58, 58, 49] ++ u32be 54321

/-- A plain source (no `io.WriterTo`) whose first read reports zero bytes
and a non-EOF error. -/
def c8srcE : CopySrc := ⟨none, [⟨0, some (ReadErr.fail 7)⟩]⟩

/-- A plain destination (no `io.ReaderFrom`) accepting every chunk. -/
def c8dstE : CopyDst := ⟨none, []⟩

/-- The loop result for that pair: totals 0 = 0 with a read error. -/
def c8resE : CopyResult := ⟨0, 0, some (CopyErr.readFail 7)⟩

/-- A plain source delivering two bytes and then a clean EOF. -/
def c8srcW : CopySrc := ⟨none, [⟨2, none⟩, ⟨0, some ReadErr.eof⟩]⟩

/-- A plain destination accepting every chunk. -/
def c8dstW : CopyDst := ⟨none, []⟩

/-- The loop result for that pair: totals 2 = 2 with a nil error. -/
def c8resW : CopyResult := ⟨2, 2, none⟩

/-! ## Helper lemmas -/

-- Looking up a key just removed from an association list finds nothing.
theorem lookupPair_delPair {α β : Type} [DecidableEq α] (l : List (α × β)) (a : α) :
    lookupPair (delPair l a) a = none := by
  induction l with
  | nil => rfl
  | cons e rest ih =>
      obtain ⟨k, v⟩ := e
      by_cases h : k = a
      · simp [delPair, h, ih]
      · simp [delPair, lookupPair, h, ih]

-- Closing-and-deleting the same forwards key twice equals doing it once.
theorem CloseAndDel_idem (st : ForwardState) (a : List Nat) :
    CloseAndDel (CloseAndDel st a) a = CloseAndDel st a := by
  unfold CloseAndDel
  cases h : lookupPair st.forwards a with
  | none => simp [h]
  | some ln => simp [h, lookupPair_delPair]

/-- C2: for every exit code and every session channel behaviour, `SendExitStatus`
with close requested sends one `exit-status` request whose payload is the code
truncated to an unsigned 32-bit big-endian value with want-reply false, and then
closes the channel, whether or not the send returned an error; the close is the
event after the send. -/
theorem c2_send_exit_status_then_close (code : Int) (sendErr closeErr : Option Nat) :
    (SendExitStatus code true sendErr closeErr).events =
      [SessionEvent.sendRequest ExitStatus false (u32be ((code % (2 ^ 32 : Int)).toNat)),
       SessionEvent.close] := by
  cases sendErr <;> rfl

/-- C10: each of the three message-queue sizes passed to
`NewSessionChannelHandler` becomes the queue's capacity when non-negative
(capacity 0 is an unbuffered queue) and is replaced by 1 when negative. -/
theorem c10_queue_capacities (w p s c : Int) :
    ((0 ≤ w → (NewSessionChannelHandler w p s c).winchCap = w) ∧
     (w < 0 → (NewSessionChannelHandler w p s c).winchCap = 1)) ∧
    ((0 ≤ p → (NewSessionChannelHandler w p s c).ptyCap = p) ∧
     (p < 0 → (NewSessionChannelHandler w p s c).ptyCap = 1)) ∧
    ((0 ≤ s → (NewSessionChannelHandler w p s c).sigCap = s) ∧
     (s < 0 → (NewSessionChannelHandler w p s c).sigCap = 1)) := by
  simp only [NewSessionChannelHandler]
  refine ⟨⟨?_, ?_⟩, ⟨?_, ?_⟩, ⟨?_, ?_⟩⟩ <;> intro h <;> split <;> first | rfl | omega

/-- C10 witness: at sizes (-3, 0, 5, 64) the created queues have
capacities 1, 0 and 5. -/
theorem c10_queue_capacities_witness :
    (NewSessionChannelHandler (-3) 0 5 64).winchCap = 1 ∧
    (NewSessionChannelHandler (-3) 0 5 64).ptyCap = 0 ∧
    (NewSessionChannelHandler (-3) 0 5 64).sigCap = 5 :=
  ⟨(c10_queue_capacities (-3) 0 5 64).1.2 (by decide),
   (c10_queue_capacities (-3) 0 5 64).2.1.1 (by decide),
   (c10_queue_capacities (-3) 0 5 64).2.2.1 (by decide)⟩

/-- C9: the map-based `SSHContext` stores the client version under the
server-version key, so after `SetClientVersion` the `ClientVersion` accessor
still finds no client-version value (its type assertion would panic) while the
server-version slot now holds the client's string — refuting the claim for that
implementation; the struct-based `SSHContext` keeps the two slots distinct
exactly as the claim states. -/
theorem c9_version_slot_collision :
    (kvClientVersion (kvSetClientVersion [] "V") = none ∧
     kvServerVersion (kvSetClientVersion [] "V") = some "V") ∧
    (∀ (ctx : TypedSSHContext) (v : String),
       typedClientVersion (typedSetClientVersion ctx v) = v ∧
       typedServerVersion (typedSetClientVersion ctx v) = typedServerVersion ctx ∧
       typedServerVersion (typedSetServerVersion ctx v) = v ∧
       typedClientVersion (typedSetServerVersion ctx v) = typedClientVersion ctx) := by
  exact ⟨⟨rfl, rfl⟩, fun ctx v => ⟨rfl, rfl, rfl, rfl⟩⟩

/-- C1: on a successful `tcpip-forward` bind the handler calls
`request.Reply(true, nil)` — the success reply carries no payload at all, never
the OS-assigned port, contradicting the claim (here: bind-addr 127.0.0.1,
requested bind-port 0, OS-assigned port 45678). -/
theorem c1_forward_reply_has_no_port :
    ServeForwardReply c1p0 (Except.ok 45678) = ⟨true, none⟩ ∧
    ∀ port : Nat, (⟨true, none⟩ : GlobalReply) ≠ ⟨true, some (u32be port)⟩ := by
  refine ⟨by decide, fun port => ?_⟩
  simp [GlobalReply.mk.injEq]

/-- C5: `Shutdown` is not idempotent: on a server with a listener and an empty
registry the first call returns normally, but the second dereferences the
nil listener field and panics; moreover, on a server with one registered
connection the first call already deadlocks, because `DelSSHConn` re-locks the
mutex `Shutdown` is holding. -/
theorem c5_shutdown_not_idempotent :
    Shutdown none c5st0 = Outcome.ok (c5st1, none) ∧
    Shutdown none c5st1 = Outcome.panicked ∧
    Shutdown none c5stc = Outcome.deadlocked := by
  refine ⟨by decide, by decide, by decide⟩

/-- C4: the reader-side tee hands the sink the buffer contents from BEFORE the
underlying read, not the bytes that traverse the channel: with buffer
[0, 0, 0] and the channel delivering [1, 2], the read returns those two bytes
but the sink received [0, 0, 0]. -/
theorem c4_tee_read_sinks_stale_buffer :
    (copyOnReadConnRead [0, 0, 0] [1, 2] none none).n = 2 ∧
    (copyOnReadConnRead [0, 0, 0] [1, 2] none none).bufAfter.take 2 = [1, 2] ∧
    (copyOnReadConnRead [0, 0, 0] [1, 2] none none).sinkGot = [[0, 0, 0]] ∧
    (copyOnReadConnRead [0, 0, 0] [1, 2] none none).sinkGot ≠ [[1, 2]] := by
  refine ⟨rfl, rfl, rfl, by decide⟩

/-- C6: when the outbound dial of a well-formed, accepted `direct-tcpip`
request fails, the handler returns immediately after the accept — it neither
closes the channel nor the (never-opened) TCP side, so the accepted channel
stays open, contradicting the claim. -/
theorem c6_dial_failure_leaves_channel_open :
    HandleDirectTcpIP DirectTcpIpChannel c6extra0 true false = [DTEvent.accept] ∧
    DTEvent.closeChannel ∉ HandleDirectTcpIP DirectTcpIpChannel c6extra0 true false := by
  have h : HandleDirectTcpIP DirectTcpIpChannel c6extra0 true false = [DTEvent.accept] := by
    unfold HandleDirectTcpIP
    rw [if_pos rfl]
    rfl
  exact ⟨h, by rw [h]; decide⟩

/-- C7: every `cancel-tcpip-forward` request with a well-formed payload is
answered with a true reply and a nil payload, whether or not the key is
registered, and cancellation is idempotent: cancelling the same key again
replies true again and leaves the handler state (forwards map and closed
listeners) exactly as after the first cancel. -/
theorem c7_cancel_idempotent (p : List Nat) (st : ForwardState)
    (h : (parseCancelMsg p).isSome) :
    (CancelForward p st).reply = ⟨true, none⟩ ∧
    (CancelForward p ((CancelForward p st).state)).state = (CancelForward p st).state ∧
    (CancelForward p ((CancelForward p st).state)).reply = ⟨true, none⟩ := by
  obtain ⟨msg, hm⟩ := Option.isSome_iff_exists.mp h
  obtain ⟨addr, port⟩ := msg
  simp only [CancelForward, hm]
  exact ⟨trivial, CloseAndDel_idem st _, trivial⟩

/-- C7 witness: cancelling 127.0.0.1:8080 on a map that does not hold that key
replies true, and a second cancel leaves the state unchanged. -/
theorem c7_cancel_idempotent_witness :
    (parseCancelMsg c7p0).isSome ∧
    (CancelForward c7p0 c7st0).reply = ⟨true, none⟩ ∧
    (CancelForward c7p0 ((CancelForward c7p0 c7st0).state)).state =
      (CancelForward c7p0 c7st0).state := by
  have h : (parseCancelMsg c7p0).isSome := by decide
  exact ⟨h, (c7_cancel_idempotent c7p0 c7st0 h).1, (c7_cancel_idempotent c7p0 c7st0 h).2.1⟩

-- A write response reporting the full chunk with no error passes the fixup.
theorem adjustWrite_full (n : Nat) : adjustWrite n ⟨(n : Int), none⟩ = ((n : Int), none) := by
  unfold adjustWrite
  dsimp only
  rw [if_neg (by omega)]
  rfl

-- A write response in range [0, nr] with no error passes the fixup unchanged.
theorem adjustWrite_valid (n : Nat) (w : Int) (h0 : 0 ≤ w) (hle : w ≤ (n : Int)) :
    adjustWrite n ⟨w, none⟩ = (w, none) := by
  unfold adjustWrite
  dsimp only
  rw [if_neg (by omega)]
  rfl

-- The fixed-up count is between 0 and the chunk size.
theorem adjustWrite_bounds (n : Nat) (resp : WriteResp) :
    0 ≤ (adjustWrite n resp).1 ∧ (adjustWrite n resp).1 ≤ (n : Int) := by
  unfold adjustWrite
  split
  · dsimp only
    omega
  · rename_i h
    push_neg at h
    dsimp only
    omega
-- When the cancellation signal is already ready, the loop returns the
-- interrupted error before reading anything.
theorem copy_cancelled (reads : List ReadStep) (writes : List WriteResp) (t i : Nat)
    (h : t ≤ i) :
    copyLoop reads writes (some t) i = ⟨0, 0, some CopyErr.interrupted⟩ := by
  unfold copyLoop
  simp [cancelHit, h]
-- With no cancellation and a destination that accepts every chunk in
-- full, a source trace of error-free reads ending in a clean EOF makes
-- the copy return a nil error.
theorem copy_clean_eof (rs : List ReadStep) (n : Nat) :
    ∀ i : Nat, (∀ r ∈ rs, r.er = none) →
      (copyLoop (rs ++ [⟨n, some ReadErr.eof⟩]) [] none i).err = none := by
  induction rs with
  | nil =>
      intro i _
      unfold copyLoop
      simp only [cancelHit, List.nil_append, Bool.false_eq_true, if_false]
      by_cases hn : 0 < n
      · simp only [hn, if_true, List.headD_nil, adjustWrite_full]
        simp
      · simp only [hn, if_false]
  | cons r rest ih =>
      intro i hclean
      have hr : r.er = none := hclean r (List.mem_cons_self r rest)
      have hrest : ∀ x ∈ rest, x.er = none := fun x hx => hclean x (List.mem_cons_of_mem r hx)
      unfold copyLoop
      simp only [cancelHit, List.cons_append, Bool.false_eq_true, if_false]
      by_cases hn : 0 < r.nr
      · simp only [hn, if_true, List.headD_nil, adjustWrite_full, hr]
        simpa using ih (i + 1) hrest
      · simp only [hn, if_false, hr]
        exact ih (i + 1) hrest
-- A destination that reports fewer bytes than the chunk without an
-- error makes the copy return the short-write error (here the short
-- response answers the first chunk-producing read).
theorem copy_short_write (rs : List ReadStep) (r : ReadStep) (rest : List ReadStep)
    (w : Int) :
    ∀ i : Nat, (∀ x ∈ rs, x.nr = 0 ∧ x.er = none) → 0 ≤ w → w < (r.nr : Int) →
      (copyLoop (rs ++ r :: rest) [⟨w, none⟩] none i).err =
        some CopyErr.shortWrite := by
  induction rs with
  | nil =>
      intro i _ h0 hlt
      have hn : 0 < r.nr := by omega
      unfold copyLoop
      simp only [cancelHit, List.nil_append, Bool.false_eq_true, if_false, hn, if_true,
        List.headD_cons]
      rw [adjustWrite_valid r.nr w h0 (le_of_lt hlt)]
      have hne : w ≠ (r.nr : Int) := ne_of_lt hlt
      simp [hne]
  | cons x rest' ih =>
      intro i hz h0 hlt
      have hx := hz x (List.mem_cons_self x rest')
      have hrest : ∀ y ∈ rest', y.nr = 0 ∧ y.er = none :=
        fun y hy => hz y (List.mem_cons_of_mem x hy)
      unfold copyLoop
      simp only [cancelHit, List.cons_append, Bool.false_eq_true, if_false, hx.1,
        lt_irrefl, if_false, hx.2]
      exact ih (i + 1) hrest h0 hlt
-- On the buffered loop the bytes delivered never exceed the bytes read,
-- and a nil error forces the totals to be equal.
theorem copyLoop_totals (reads : List ReadStep) :
    ∀ (writes : List WriteResp) (cancelAt : Option Nat) (i : Nat),
      (copyLoop reads writes cancelAt i).written ≤
        ((copyLoop reads writes cancelAt i).readTotal : Int) ∧
      ((copyLoop reads writes cancelAt i).err = none →
        (copyLoop reads writes cancelAt i).written =
          ((copyLoop reads writes cancelAt i).readTotal : Int)) := by
  induction reads with
  | nil =>
      intro writes c i
      unfold copyLoop
      split
      · simp
      · simp
  | cons r rest ih =>
      intro writes c i
      unfold copyLoop
      split
      · simp
      · dsimp only
        by_cases hn : 0 < r.nr
        · simp only [hn, if_true]
          obtain ⟨hb0, hble⟩ := adjustWrite_bounds r.nr (writes.headD ⟨(r.nr : Int), none⟩)
          by_cases hsome : (adjustWrite r.nr (writes.headD ⟨(r.nr : Int), none⟩)).2.isSome
          · simp only [hsome, if_true]
            refine ⟨hble, fun h => ?_⟩
            rw [h] at hsome
            simp at hsome
          · simp only [hsome, Bool.false_eq_true, if_false]
            by_cases hne : (adjustWrite r.nr (writes.headD ⟨(r.nr : Int), none⟩)).1 = (r.nr : Int)
            · simp only [hne, ne_eq, not_true_eq_false, if_false]
              cases hre : r.er with
              | none =>
                  obtain ⟨ihle, iheq⟩ := ih writes.tail c (i + 1)
                  constructor
                  · dsimp only
                    push_cast
                    omega
                  · intro h
                    dsimp only at h ⊢
                    have := iheq h
                    push_cast
                    omega
              | some e =>
                  cases e with
                  | eof =>
                      dsimp only
                      exact ⟨le_refl _, fun _ => rfl⟩
                  | fail code =>
                      dsimp only
                      exact ⟨le_refl _, by simp⟩
            · simp only [hne, ne_eq, not_false_eq_true, if_true]
              exact ⟨hble, by simp⟩
        · simp only [hn, if_false]
          cases hre : r.er with
          | none => exact ih writes c (i + 1)
          | some e =>
              cases e with
              | eof => simp
              | fail code => simp
/-- C8 (amended): whenever `CopyBufferWithContext` runs its buffered loop —
the source implements no `io.WriterTo` and the destination no `io.ReaderFrom`;
on the fast paths the whole copy is delegated to external code and the
function returns the delegate's result verbatim, guaranteeing nothing about
the totals — the bytes delivered to the destination never exceed the bytes
read from the source, and when the copy returns a nil error the two totals
are equal.  The "only if" direction of the original claim is refuted
separately at a concrete input. -/
theorem c8_written_le_read (src : CopySrc) (dst : CopyDst) (cancelAt : Option Nat)
    (r : CopyResult) (hw : src.writerTo = none) (hrf : dst.readerFrom = none)
    (h : CopyBufferWithContext src dst cancelAt = CopyOutcome.looped r) :
    r.written ≤ (r.readTotal : Int) ∧
    (r.err = none → r.written = (r.readTotal : Int)) := by
  unfold CopyBufferWithContext at h
  rw [hw, hrf] at h
  dsimp only at h
  injection h with h
  subst h
  exact copyLoop_totals src.reads dst.writes cancelAt 0

/-- C8 counterexample: a source (without `io.WriterTo`) whose very first read
reports zero bytes and a non-EOF error gives a run with no cancellation in
which the totals are equal (0 = 0) yet an error occurred — so equality of the
totals does not imply that no error occurred, refuting the "if and only if"
of the claim. -/
theorem c8_error_with_equal_totals :
    CopyBufferWithContext c8srcE c8dstE none = CopyOutcome.looped c8resE ∧
    c8resE.written = (c8resE.readTotal : Int) ∧ c8resE.err ≠ none := by
  decide

/-- C8 witness: a plain source delivering two bytes then a clean EOF and a
fully accepting plain destination take the loop path; the error is nil and
the inequality and the equality both hold concretely. -/
theorem c8_written_le_read_witness :
    c8srcW.writerTo = none ∧ c8dstW.readerFrom = none ∧
    CopyBufferWithContext c8srcW c8dstW none = CopyOutcome.looped c8resW ∧
    c8resW.written ≤ (c8resW.readTotal : Int) ∧
    (c8resW.err = none → c8resW.written = (c8resW.readTotal : Int)) :=
  ⟨rfl, rfl, by decide,
   (c8_written_le_read c8srcW c8dstW none c8resW rfl rfl (by decide)).1,
   (c8_written_le_read c8srcW c8dstW none c8resW rfl rfl (by decide)).2⟩

/-- C3: the claim fails on the code: whenever the source implements
`io.WriterTo` or the destination implements `io.ReaderFrom` — which the
repo's own call sites hit, e.g. the `*net.TCPConn` destination in the
direct-tcpip handler — `CopyBufferWithContext` returns the delegate's result
for every state of the cancellation signal, never the interrupted error, and
the short-write fixup never runs; concretely, with the cancellation signal
already fired, a ReaderFrom destination whose delegate returns `(0, nil)`
makes the copy return a nil error, while the buffered loop at the very same
cancellation state returns the interrupted error, as the claim demands. -/
theorem c3_fast_path_ignores_cancellation :
    (∀ (n : Int) (e : Option CopyErr) (reads : List ReadStep) (dst : CopyDst)
       (cancelAt : Option Nat),
       CopyBufferWithContext ⟨some (n, e), reads⟩ dst cancelAt =
         CopyOutcome.delegatedWriteTo n e) ∧
    (∀ (n : Int) (e : Option CopyErr) (reads : List ReadStep)
       (writes : List WriteResp) (cancelAt : Option Nat),
       CopyBufferWithContext ⟨none, reads⟩ ⟨some (n, e), writes⟩ cancelAt =
         CopyOutcome.delegatedReadFrom n e) ∧
    CopyBufferWithContext ⟨none, []⟩ ⟨some (0, none), []⟩ (some 0) =
      CopyOutcome.delegatedReadFrom 0 none ∧
    CopyBufferWithContext ⟨none, []⟩ ⟨none, []⟩ (some 0) =
      CopyOutcome.looped ⟨0, 0, some CopyErr.interrupted⟩ :=
  ⟨fun n e reads dst cancelAt => rfl, fun n e reads writes cancelAt => rfl,
   by decide, by decide⟩
